import Mathlib

/-!
Verification of the sliding-window rate limiter in `src/rate_limiter.py`.

The limiter keeps two ordered sequences of monotonic timestamps (a
per-second window and a per-minute window), trims expired entries from
their heads, admits a caller only when both trimmed windows are below
their caps, and otherwise computes a wait before re-checking.

Timestamps are modelled as rationals (`ℚ`); Python `deque` objects are
modelled as `List ℚ` with `popleft` at the head and `append` at the tail.
Python's `deque[0]` access, which raises `IndexError` on an empty deque,
is modelled with `List.head?`, a `none` result standing for the raised
exception.
-/

/-- State of `RateLimiter` (`src/rate_limiter.py`, lines 19–34): the two
configured caps and the two sliding-window deques `_second_window` and
`_minute_window`.  The `asyncio.Lock` is not part of the data state; lock
usage is modelled separately by the `lockTrace` definitions below. -/
structure RateLimiter where
  messages_per_second : Int
  messages_per_minute : Int
  second_window : List ℚ
  minute_window : List ℚ
  deriving Repr, DecidableEq

/-- Python truthiness-based default: `x or d` where `x : int | None`.
`None` and `0` are falsy, every other integer is truthy. -/
def pyOrInt (x : Option Int) (d : Int) : Int :=
  match x with
  | none => d
  | some v => if v = 0 then d else v

/-- `int(os.getenv(name, default))`: the environment variable, already
parsed to an integer when present, else the built-in default. -/
def getenvInt (env : Option Int) (d : Int) : Int :=
  match env with
  | none => d
  | some v => v

/-- `RateLimiter.__init__` (lines 19–34): each cap is
`argument or int(os.getenv(VAR, default))` with defaults 10 and 100;
both windows start empty.  No validation is performed. -/
def RateLimiter.init_ (messages_per_second messages_per_minute : Option Int)
    (envPerSecond envPerMinute : Option Int) : RateLimiter :=
  { messages_per_second := pyOrInt messages_per_second (getenvInt envPerSecond 10)
    messages_per_minute := pyOrInt messages_per_minute (getenvInt envPerMinute 100)
    second_window := []
    minute_window := [] }

/-- `RateLimiter._clean_windows` (lines 36–41): pop entries from the head
of the second window while the head is `≤ now - 1`, and from the head of
the minute window while the head is `≤ now - 60`.  The two `while` loops
are exactly `List.dropWhile`. -/
def clean_windows (st : RateLimiter) (now : ℚ) : RateLimiter :=
  { st with
    second_window := st.second_window.dropWhile (fun ts => ts ≤ now - 1)
    minute_window := st.minute_window.dropWhile (fun ts => ts ≤ now - 60) }

/-- Wait computation of `acquire` (lines 62–67): start from `wait = 0.0`,
then for each window that is not below its cap take the max with
`window[0] + horizon - now`.  A `none` result models the `IndexError`
raised by `window[0]` on an empty deque. -/
def acquire_wait (st : RateLimiter) (now : ℚ)
    (per_second_ok per_minute_ok : Bool) : Option ℚ :=
  let wait0 : ℚ := 0
  match (if per_second_ok then some wait0
         else st.second_window.head?.map fun h => max wait0 (h + 1 - now)) with
  | none => none
  | some wait1 =>
      if per_minute_ok then some wait1
      else st.minute_window.head?.map fun h => max wait1 (h + 60 - now)

/-- Outcome of one iteration of `acquire`'s loop, executed while holding
the lock: admission, a computed sleep (the lock is released around the
sleep and the loop repeats), or the `IndexError` fault. -/
inductive AcquireResult where
  | admitted (st : RateLimiter)
  | sleep (wait : ℚ) (st : RateLimiter)
  | indexError (st : RateLimiter)
  deriving Repr, DecidableEq

/-- One iteration of the `while True` loop of `RateLimiter.acquire`
(lines 49–74) at monotonic time `now`: clean both windows, check both
caps, and either append `now` to both windows and return, or compute the
wait to sleep before re-checking. -/
def acquire_step (st : RateLimiter) (now : ℚ) : AcquireResult :=
  let st1 := clean_windows st now
  let per_second_ok : Bool := decide ((st1.second_window.length : Int) < st1.messages_per_second)
  let per_minute_ok : Bool := decide ((st1.minute_window.length : Int) < st1.messages_per_minute)
  if per_second_ok && per_minute_ok then
    AcquireResult.admitted
      { st1 with
        second_window := st1.second_window ++ [now]
        minute_window := st1.minute_window ++ [now] }
  else
    match acquire_wait st1 now per_second_ok per_minute_ok with
    | some w => AcquireResult.sleep w st1
    | none => AcquireResult.indexError st1

/-- `RateLimiter.current_second_count` (lines 76–81): clean both windows
at `now`, return the second window's length together with the mutated
state. -/
def current_second_count (st : RateLimiter) (now : ℚ) : Nat × RateLimiter :=
  let st1 := clean_windows st now
  (st1.second_window.length, st1)

/-- `RateLimiter.current_minute_count` (lines 83–88): clean both windows
at `now`, return the minute window's length together with the mutated
state. -/
def current_minute_count (st : RateLimiter) (now : ℚ) : Nat × RateLimiter :=
  let st1 := clean_windows st now
  (st1.minute_window.length, st1)

/-- An atomic operation on the shared limiter state, tagged with the
monotonic time at which it runs.  `tryAcq` is one lock-holding iteration
of `acquire`'s loop; interleavings of concurrent callers are arbitrary
sequences of these atomic operations. -/
inductive Op where
  | tryAcq (now : ℚ)
  | secondCount (now : ℚ)
  | minuteCount (now : ℚ)
  deriving Repr, DecidableEq

/-- The monotonic time at which an operation runs. -/
def Op.time : Op → ℚ
  | .tryAcq now => now
  | .secondCount now => now
  | .minuteCount now => now

/-- The state after an atomic operation (for `tryAcq`, the state is the
cleaned-and-possibly-appended state whatever the outcome; on the
`IndexError` fault the windows have already been cleaned when the
exception propagates). -/
def applyOp (st : RateLimiter) (op : Op) : RateLimiter :=
  match op with
  | .tryAcq now =>
      match acquire_step st now with
      | .admitted st' => st'
      | .sleep _ st' => st'
      | .indexError st' => st'
  | .secondCount now => (current_second_count st now).2
  | .minuteCount now => (current_minute_count st now).2

/-- Run a sequence of atomic operations from a starting state. -/
def runOps (st : RateLimiter) (ops : List Op) : RateLimiter :=
  ops.foldl applyOp st

/-- `chronoFrom t ops` checks that operation times are non-decreasing and
all at least `t` (monotonic clock). -/
def chronoFrom (t : ℚ) : List Op → Bool
  | [] => true
  | op :: rest => decide (t ≤ op.time) && chronoFrom op.time rest

/-- A lock-relevant event in the body of a `RateLimiter` method: acquiring
the `asyncio.Lock`, releasing it, or reading/mutating the shared window
deques. -/
inductive LockEvent where
  | lockAcquire
  | lockRelease
  | windowAccess
  deriving Repr, DecidableEq

/-- Lock-relevant events of `RateLimiter.acquire` (lines 49–74) on the
admission path: `async with self._lock` acquires the lock, the loop body
reads and mutates the windows, and the `async with` block releases the
lock on return. -/
def acquire_lockTrace : List LockEvent :=
  [LockEvent.lockAcquire, LockEvent.windowAccess, LockEvent.lockRelease]

/-- Lock-relevant events of the `current_second_count` property
(lines 76–81): it calls `_clean_windows` and reads the window length with
no `async with self._lock` around them (as a synchronous property it
could not await the lock).  The `current_minute_count` property
(lines 83–88) has the identical body shape. -/
def current_count_lockTrace : List LockEvent :=
  [LockEvent.windowAccess]

section Helpers

/-- The head surviving `dropWhile (· ≤ c)` is strictly above `c`. -/
theorem lt_of_dropWhile_le_eq_cons {l t : List ℚ} {c a : ℚ}
    (h : l.dropWhile (fun ts => ts ≤ c) = a :: t) : c < a := by
  have h2 := List.head?_dropWhile_not (fun ts => decide (ts ≤ c)) l
  rw [h] at h2
  simp only [List.head?_cons] at h2
  simpa using h2

/-- `dropWhile` is idempotent. -/
theorem dropWhile_dropWhile_eq {α : Type} (p : α → Bool) (l : List α) :
    (l.dropWhile p).dropWhile p = l.dropWhile p := by
  cases h : l.dropWhile p with
  | nil => rfl
  | cons a t =>
      have ha := List.head?_dropWhile_not p l
      rw [h] at ha
      simp only [List.head?_cons] at ha
      rw [List.dropWhile_cons_of_neg (by simp [ha])]

/-- On a list sorted in non-decreasing order, dropping the head entries
that are `≤ c` is the same as filtering to the entries strictly above
`c`. -/
theorem dropWhile_le_eq_filter_of_sorted {l : List ℚ} {c : ℚ}
    (hl : l.Sorted (fun a b => a ≤ b)) :
    l.dropWhile (fun ts => ts ≤ c) = l.filter (fun ts => c < ts) := by
  induction l with
  | nil => rfl
  | cons a l ih =>
      rcases List.sorted_cons.mp hl with ⟨ha, hl2⟩
      by_cases hac : a ≤ c
      · rw [List.dropWhile_cons_of_pos (by simpa using hac), ih hl2,
          List.filter_cons_of_neg (by simpa using not_lt.mpr hac)]
      · rw [List.dropWhile_cons_of_neg (by simpa using hac),
          List.filter_cons_of_pos (by simpa using lt_of_not_le hac)]
        have : l.filter (fun ts => decide (c < ts)) = l := by
          refine List.filter_eq_self.mpr fun b hb => ?_
          have hab : a ≤ b := ha b hb
          simpa using lt_of_lt_of_le (lt_of_not_le hac) hab
        rw [this]

/-- A list whose length reaches an integer cap that is at least 1 is
nonempty. -/
theorem exists_cons_of_cap_le {l : List ℚ} {cap : Int}
    (h1 : 1 ≤ cap) (h2 : ¬ ((l.length : Int) < cap)) :
    ∃ a t, l = a :: t := by
  cases l with
  | nil =>
      exfalso
      exact h2 (by simpa using lt_of_lt_of_le Int.zero_lt_one h1)
  | cons a t => exact ⟨a, t, rfl⟩

/-- `clean_windows` does not change the configured caps. -/
theorem clean_windows_limits (st : RateLimiter) (now : ℚ) :
    (clean_windows st now).messages_per_second = st.messages_per_second ∧
    (clean_windows st now).messages_per_minute = st.messages_per_minute :=
  ⟨rfl, rfl⟩

/-- When both trimmed windows are strictly below their caps,
`acquire_step` admits and appends `now` to both windows. -/
theorem acquire_step_of_ok {st : RateLimiter} {now : ℚ}
    (hs : ((clean_windows st now).second_window.length : Int) < st.messages_per_second)
    (hm : ((clean_windows st now).minute_window.length : Int) < st.messages_per_minute) :
    acquire_step st now = AcquireResult.admitted
      { clean_windows st now with
        second_window := (clean_windows st now).second_window ++ [now]
        minute_window := (clean_windows st now).minute_window ++ [now] } := by
  have hs' : ((clean_windows st now).second_window.length : Int) <
      (clean_windows st now).messages_per_second := hs
  have hm' : ((clean_windows st now).minute_window.length : Int) <
      (clean_windows st now).messages_per_minute := hm
  unfold acquire_step
  rw [if_pos (by simp [hs', hm'])]

/-- When at least one trimmed window is at or above its cap,
`acquire_step` takes the wait-computing branch. -/
theorem acquire_step_of_not_ok {st : RateLimiter} {now : ℚ}
    (h : ¬ (((clean_windows st now).second_window.length : Int) < st.messages_per_second ∧
            ((clean_windows st now).minute_window.length : Int) < st.messages_per_minute)) :
    acquire_step st now =
      match acquire_wait (clean_windows st now) now
        (decide (((clean_windows st now).second_window.length : Int) < st.messages_per_second))
        (decide (((clean_windows st now).minute_window.length : Int) < st.messages_per_minute)) with
      | some w => AcquireResult.sleep w (clean_windows st now)
      | none => AcquireResult.indexError (clean_windows st now) := by
  unfold acquire_step
  rw [if_neg (by simpa using h)]
  rfl

/-- Inversion: an admission can only come from both trimmed windows being
strictly below their caps, and the admitted state is the trimmed state
with `now` appended to both windows. -/
theorem acquire_step_admitted_inv {st : RateLimiter} {now : ℚ} {st' : RateLimiter}
    (h : acquire_step st now = AcquireResult.admitted st') :
    ((clean_windows st now).second_window.length : Int) < st.messages_per_second ∧
    ((clean_windows st now).minute_window.length : Int) < st.messages_per_minute ∧
    st' = { clean_windows st now with
            second_window := (clean_windows st now).second_window ++ [now]
            minute_window := (clean_windows st now).minute_window ++ [now] } := by
  by_cases hok : ((clean_windows st now).second_window.length : Int) < st.messages_per_second ∧
      ((clean_windows st now).minute_window.length : Int) < st.messages_per_minute
  · refine ⟨hok.1, hok.2, ?_⟩
    have := acquire_step_of_ok hok.1 hok.2
    rw [this] at h
    exact (AcquireResult.admitted.injEq _ _).mp h.symm
  · exfalso
    rw [acquire_step_of_not_ok hok] at h
    cases hw : acquire_wait (clean_windows st now) now
        (decide (((clean_windows st now).second_window.length : Int) < st.messages_per_second))
        (decide (((clean_windows st now).minute_window.length : Int) < st.messages_per_minute)) <;>
      rw [hw] at h <;> exact absurd h (by simp)

/-- The state after one `tryAcq` step is either just the trimmed state
(sleep or fault path) or, when both trimmed windows were strictly below
their caps, the trimmed state with `now` appended to both windows. -/
theorem applyOp_tryAcq (st : RateLimiter) (now : ℚ) :
    applyOp st (Op.tryAcq now) = clean_windows st now ∨
    (((clean_windows st now).second_window.length : Int) < st.messages_per_second ∧
     ((clean_windows st now).minute_window.length : Int) < st.messages_per_minute ∧
     applyOp st (Op.tryAcq now) = { clean_windows st now with
        second_window := (clean_windows st now).second_window ++ [now]
        minute_window := (clean_windows st now).minute_window ++ [now] }) := by
  by_cases hok : ((clean_windows st now).second_window.length : Int) < st.messages_per_second ∧
      ((clean_windows st now).minute_window.length : Int) < st.messages_per_minute
  · right
    refine ⟨hok.1, hok.2, ?_⟩
    simp only [applyOp]
    rw [acquire_step_of_ok hok.1 hok.2]
  · left
    simp only [applyOp]
    rw [acquire_step_of_not_ok hok]
    cases hw : acquire_wait (clean_windows st now) now
        (decide (((clean_windows st now).second_window.length : Int) < st.messages_per_second))
        (decide (((clean_windows st now).minute_window.length : Int) < st.messages_per_minute)) <;>
      simp

/-- Every operation leaves the configured caps unchanged. -/
theorem applyOp_limits (st : RateLimiter) (op : Op) :
    (applyOp st op).messages_per_second = st.messages_per_second ∧
    (applyOp st op).messages_per_minute = st.messages_per_minute := by
  cases op with
  | tryAcq now =>
      rcases applyOp_tryAcq st now with h | ⟨_, _, h⟩ <;> rw [h] <;> exact ⟨rfl, rfl⟩
  | secondCount now => exact ⟨rfl, rfl⟩
  | minuteCount now => exact ⟨rfl, rfl⟩

/-- Running any sequence of operations leaves the configured caps
unchanged. -/
theorem runOps_limits (st : RateLimiter) (ops : List Op) :
    (runOps st ops).messages_per_second = st.messages_per_second ∧
    (runOps st ops).messages_per_minute = st.messages_per_minute := by
  induction ops generalizing st with
  | nil => exact ⟨rfl, rfl⟩
  | cons op rest ih =>
      have h1 := applyOp_limits st op
      have h2 := ih (applyOp st op)
      exact ⟨h2.1.trans h1.1, h2.2.trans h1.2⟩

/-- The window-length cap invariant: neither deque ever holds more
entries than its configured cap. -/
def CapInv (st : RateLimiter) : Prop :=
  (st.second_window.length : Int) ≤ st.messages_per_second ∧
  (st.minute_window.length : Int) ≤ st.messages_per_minute

/-- Trimming can only shrink the windows, so it preserves the cap
invariant. -/
theorem capInv_clean (st : RateLimiter) (now : ℚ) (h : CapInv st) :
    CapInv (clean_windows st now) := by
  have hs : ((st.second_window.dropWhile (fun ts => ts ≤ now - 1)).length : Int) ≤
      (st.second_window.length : Int) := by
    exact_mod_cast (List.dropWhile_sublist _).length_le
  have hm : ((st.minute_window.dropWhile (fun ts => ts ≤ now - 60)).length : Int) ≤
      (st.minute_window.length : Int) := by
    exact_mod_cast (List.dropWhile_sublist _).length_le
  exact ⟨le_trans hs h.1, le_trans hm h.2⟩

/-- Every atomic operation preserves the cap invariant: an admission
appends only when the trimmed window is strictly below its cap, and the
other paths only trim. -/
theorem capInv_applyOp (st : RateLimiter) (op : Op) (h : CapInv st) :
    CapInv (applyOp st op) := by
  cases op with
  | tryAcq now =>
      rcases applyOp_tryAcq st now with heq | ⟨h1, h2, heq⟩
      · rw [heq]; exact capInv_clean st now h
      · rw [heq]
        constructor
        · show (((clean_windows st now).second_window ++ [now]).length : Int) ≤
            st.messages_per_second
          simp only [List.length_append, List.length_singleton]
          push_cast
          omega
        · show (((clean_windows st now).minute_window ++ [now]).length : Int) ≤
            st.messages_per_minute
          simp only [List.length_append, List.length_singleton]
          push_cast
          omega
  | secondCount now => exact capInv_clean st now h
  | minuteCount now => exact capInv_clean st now h

/-- The cap invariant holds after running any sequence of operations
from a state satisfying it. -/
theorem capInv_runOps (st : RateLimiter) (ops : List Op) (h : CapInv st) :
    CapInv (runOps st ops) := by
  induction ops generalizing st with
  | nil => exact h
  | cons op rest ih => exact ih (applyOp st op) (capInv_applyOp st op h)

/-- Structural invariant of reachable states at clock time `t`: both
windows are sorted in insertion (time) order, every second-window entry
also lies in the minute window, and all entries are at most `t`. -/
structure StateInv (st : RateLimiter) (t : ℚ) : Prop where
  sorted_s : st.second_window.Sorted (fun a b => a ≤ b)
  sorted_m : st.minute_window.Sorted (fun a b => a ≤ b)
  sub : ∀ ts ∈ st.second_window, ts ∈ st.minute_window
  le_s : ∀ ts ∈ st.second_window, ts ≤ t
  le_m : ∀ ts ∈ st.minute_window, ts ≤ t

/-- The structural invariant is monotone in the clock bound. -/
theorem StateInv.mono {st : RateLimiter} {t t' : ℚ} (h : StateInv st t) (ht : t ≤ t') :
    StateInv st t' :=
  ⟨h.sorted_s, h.sorted_m, h.sub,
    fun ts hts => le_trans (h.le_s ts hts) ht,
    fun ts hts => le_trans (h.le_m ts hts) ht⟩

/-- Trimming preserves the structural invariant: on sorted windows the
second-window trim (1-second horizon) is at least as aggressive as the
minute-window trim (60-second horizon). -/
theorem StateInv.clean {st : RateLimiter} {t : ℚ} (h : StateInv st t) (now : ℚ) :
    StateInv (clean_windows st now) t := by
  refine ⟨?_, ?_, ?_, ?_, ?_⟩
  · exact List.Pairwise.sublist (List.dropWhile_sublist _) h.sorted_s
  · exact List.Pairwise.sublist (List.dropWhile_sublist _) h.sorted_m
  · intro ts hts
    rw [show (clean_windows st now).second_window =
        st.second_window.dropWhile (fun x => x ≤ now - 1) from rfl,
      dropWhile_le_eq_filter_of_sorted h.sorted_s] at hts
    rw [List.mem_filter] at hts
    rcases hts with ⟨hmem, hgt⟩
    have hgt1 : now - 1 < ts := by simpa using hgt
    rw [show (clean_windows st now).minute_window =
        st.minute_window.dropWhile (fun x => x ≤ now - 60) from rfl,
      dropWhile_le_eq_filter_of_sorted h.sorted_m, List.mem_filter]
    refine ⟨h.sub ts hmem, ?_⟩
    simp only [decide_eq_true_eq]
    have h60 : (now : ℚ) - 60 ≤ now - 1 := by linarith
    exact lt_of_le_of_lt h60 hgt1
  · intro ts hts
    exact h.le_s ts ((List.dropWhile_sublist _).mem hts)
  · intro ts hts
    exact h.le_m ts ((List.dropWhile_sublist _).mem hts)

/-- Appending the current time to both windows preserves the structural
invariant when every stored entry is at most `now`. -/
theorem StateInv.append {st : RateLimiter} {now : ℚ} (h : StateInv st now) :
    StateInv { st with
          second_window := st.second_window ++ [now]
          minute_window := st.minute_window ++ [now] } now := by
  refine ⟨?_, ?_, ?_, ?_, ?_⟩
  · rw [show ({ st with
        second_window := st.second_window ++ [now]
        minute_window := st.minute_window ++ [now] } : RateLimiter).second_window =
        st.second_window ++ [now] from rfl]
    rw [List.Sorted, List.pairwise_append]
    exact ⟨h.sorted_s, by simp, fun a ha b hb => by
      rw [List.mem_singleton] at hb
      exact hb ▸ h.le_s a ha⟩
  · rw [show ({ st with
        second_window := st.second_window ++ [now]
        minute_window := st.minute_window ++ [now] } : RateLimiter).minute_window =
        st.minute_window ++ [now] from rfl]
    rw [List.Sorted, List.pairwise_append]
    exact ⟨h.sorted_m, by simp, fun a ha b hb => by
      rw [List.mem_singleton] at hb
      exact hb ▸ h.le_m a ha⟩
  · intro ts hts
    rw [List.mem_append] at hts ⊢
    rcases hts with hts | hts
    · exact Or.inl (h.sub ts hts)
    · exact Or.inr hts
  · intro ts hts
    rw [List.mem_append] at hts
    rcases hts with hts | hts
    · exact h.le_s ts hts
    · rw [List.mem_singleton] at hts
      exact le_of_eq hts
  · intro ts hts
    rw [List.mem_append] at hts
    rcases hts with hts | hts
    · exact h.le_m ts hts
    · rw [List.mem_singleton] at hts
      exact le_of_eq hts

/-- Every atomic operation run at a time `now ≥ t` preserves the
structural invariant, re-indexed to `now`. -/
theorem StateInv.applyOp {st : RateLimiter} {t : ℚ} (h : StateInv st t) (op : Op)
    (ht : t ≤ op.time) : StateInv (applyOp st op) op.time := by
  cases op with
  | tryAcq now =>
      rcases applyOp_tryAcq st now with heq | ⟨_, _, heq⟩
      · rw [heq]
        exact (h.clean now).mono ht
      · rw [heq]
        exact ((h.clean now).mono ht).append
  | secondCount now =>
      exact (h.clean now).mono ht
  | minuteCount now =>
      exact (h.clean now).mono ht

/-- The structural invariant holds after running any chronologically
ordered sequence of operations. -/
theorem StateInv.runOps {st : RateLimiter} {t : ℚ} (h : StateInv st t) (ops : List Op)
    (hc : chronoFrom t ops = true) : ∃ t', StateInv (runOps st ops) t' := by
  induction ops generalizing st t with
  | nil => exact ⟨t, h⟩
  | cons op rest ih =>
      simp only [chronoFrom, Bool.and_eq_true, decide_eq_true_eq] at hc
      exact ih (h.applyOp op hc.1) hc.2

/-- A freshly constructed limiter satisfies the structural invariant at
any clock time (both windows are empty). -/
theorem StateInv.of_init (a b ea eb : Option Int) (t : ℚ) :
    StateInv (RateLimiter.init_ a b ea eb) t := by
  refine ⟨?_, ?_, ?_, ?_, ?_⟩ <;> simp [RateLimiter.init_]

/-- Wait computation when only the second window is full. -/
theorem acquire_wait_ff_tt {st1 : RateLimiter} {now a : ℚ} {s : List ℚ}
    (ha : st1.second_window = a :: s) :
    acquire_wait st1 now false true = some (max 0 (a + 1 - now)) := by
  unfold acquire_wait
  rw [ha]
  rfl

/-- Wait computation when only the minute window is full. -/
theorem acquire_wait_tt_ff {st1 : RateLimiter} {now b : ℚ} {u : List ℚ}
    (hb : st1.minute_window = b :: u) :
    acquire_wait st1 now true false = some (max 0 (b + 60 - now)) := by
  unfold acquire_wait
  rw [hb]
  rfl

/-- Wait computation when both windows are full. -/
theorem acquire_wait_ff_ff {st1 : RateLimiter} {now a b : ℚ} {s u : List ℚ}
    (ha : st1.second_window = a :: s) (hb : st1.minute_window = b :: u) :
    acquire_wait st1 now false false =
      some (max (max 0 (a + 1 - now)) (b + 60 - now)) := by
  unfold acquire_wait
  rw [ha, hb]
  rfl

/-- `acquire_wait` returns a wait whenever each window it reads the head
of is nonempty. -/
theorem acquire_wait_some {st1 : RateLimiter} {now : ℚ} {ps pm : Bool}
    (hs : ps = false → st1.second_window ≠ [])
    (hm : pm = false → st1.minute_window ≠ []) :
    ∃ w, acquire_wait st1 now ps pm = some w := by
  cases ps
  · obtain ⟨a, s, ha⟩ := List.exists_cons_of_ne_nil (hs rfl)
    cases pm
    · obtain ⟨b, u, hb⟩ := List.exists_cons_of_ne_nil (hm rfl)
      exact ⟨_, acquire_wait_ff_ff ha hb⟩
    · exact ⟨_, acquire_wait_ff_tt ha⟩
  · cases pm
    · obtain ⟨b, u, hb⟩ := List.exists_cons_of_ne_nil (hm rfl)
      exact ⟨_, acquire_wait_tt_ff hb⟩
    · exact ⟨_, by unfold acquire_wait; rfl⟩

end Helpers

example : pyOrInt (some 0) 7 = 7 := by decide
example :
    acquire_step (RateLimiter.init_ (some 1) (some 1) none none) 0 =
      AcquireResult.admitted (RateLimiter.mk 1 1 [0] [0]) := by
  norm_num [acquire_step, clean_windows, acquire_wait, RateLimiter.init_, pyOrInt, getenvInt,
    List.dropWhile]
example :
    acquire_step (RateLimiter.mk 1 1 [0] [0]) (1/2) =
      AcquireResult.sleep (119/2) (RateLimiter.mk 1 1 [0] [0]) := by
  norm_num [acquire_step, clean_windows, acquire_wait, List.dropWhile]
example :
    clean_windows (RateLimiter.mk 10 100 [1] [1]) 2 =
      RateLimiter.mk 10 100 [] [1] := by
  norm_num [clean_windows, List.dropWhile]

/-- C1. Capacity invariant: after every sequence of operations
(acquire-loop iterations, `current_second_count`, `current_minute_count`)
on a limiter constructed with positive limits, the second window holds at
most `per_second_limit` timestamps within the trailing 1 second, the
minute window holds at most `per_minute_limit` timestamps within the
trailing 60 seconds, and no acquire iteration is admitted while either
trimmed window is at its cap. -/
theorem capacity_invariant (a b ea eb : Option Int) (ops : List Op) (now : ℚ)
    (hs : 0 < (RateLimiter.init_ a b ea eb).messages_per_second)
    (hm : 0 < (RateLimiter.init_ a b ea eb).messages_per_minute) :
    (((runOps (RateLimiter.init_ a b ea eb) ops).second_window.filter
        (fun ts => now - 1 < ts)).length : Int) ≤
      (RateLimiter.init_ a b ea eb).messages_per_second ∧
    (((runOps (RateLimiter.init_ a b ea eb) ops).minute_window.filter
        (fun ts => now - 60 < ts)).length : Int) ≤
      (RateLimiter.init_ a b ea eb).messages_per_minute ∧
    (∀ t st', acquire_step (runOps (RateLimiter.init_ a b ea eb) ops) t =
        AcquireResult.admitted st' →
      ((clean_windows (runOps (RateLimiter.init_ a b ea eb) ops) t).second_window.length :
          Int) < (RateLimiter.init_ a b ea eb).messages_per_second ∧
      ((clean_windows (runOps (RateLimiter.init_ a b ea eb) ops) t).minute_window.length :
          Int) < (RateLimiter.init_ a b ea eb).messages_per_minute) := by
  have hinit : CapInv (RateLimiter.init_ a b ea eb) := by
    constructor
    · simpa [RateLimiter.init_] using le_of_lt hs
    · simpa [RateLimiter.init_] using le_of_lt hm
  have hcap : CapInv (runOps (RateLimiter.init_ a b ea eb) ops) :=
    capInv_runOps _ ops hinit
  have hlim := runOps_limits (RateLimiter.init_ a b ea eb) ops
  refine ⟨?_, ?_, ?_⟩
  · have h1 : (((runOps (RateLimiter.init_ a b ea eb) ops).second_window.filter
        (fun ts => now - 1 < ts)).length : Int) ≤
        ((runOps (RateLimiter.init_ a b ea eb) ops).second_window.length : Int) := by
      exact_mod_cast List.length_filter_le _ _
    calc _ ≤ ((runOps (RateLimiter.init_ a b ea eb) ops).second_window.length : Int) := h1
      _ ≤ (runOps (RateLimiter.init_ a b ea eb) ops).messages_per_second := hcap.1
      _ = (RateLimiter.init_ a b ea eb).messages_per_second := hlim.1
  · have h1 : (((runOps (RateLimiter.init_ a b ea eb) ops).minute_window.filter
        (fun ts => now - 60 < ts)).length : Int) ≤
        ((runOps (RateLimiter.init_ a b ea eb) ops).minute_window.length : Int) := by
      exact_mod_cast List.length_filter_le _ _
    calc _ ≤ ((runOps (RateLimiter.init_ a b ea eb) ops).minute_window.length : Int) := h1
      _ ≤ (runOps (RateLimiter.init_ a b ea eb) ops).messages_per_minute := hcap.2
      _ = (RateLimiter.init_ a b ea eb).messages_per_minute := hlim.2
  · intro t st' hadm
    obtain ⟨h1, h2, _⟩ := acquire_step_admitted_inv hadm
    rw [hlim.1] at h1
    rw [hlim.2] at h2
    exact ⟨h1, h2⟩

/-- Witness for C1 at limits 2/3, one acquire iteration at time 0,
observed at instant 0. -/
theorem capacity_invariant_witness :
    0 < (RateLimiter.init_ (some 2) (some 3) none none).messages_per_second ∧
    0 < (RateLimiter.init_ (some 2) (some 3) none none).messages_per_minute ∧
    ((((runOps (RateLimiter.init_ (some 2) (some 3) none none)
          [Op.tryAcq 0]).second_window.filter (fun ts => (0:ℚ) - 1 < ts)).length : Int) ≤
        (RateLimiter.init_ (some 2) (some 3) none none).messages_per_second ∧
      (((runOps (RateLimiter.init_ (some 2) (some 3) none none)
          [Op.tryAcq 0]).minute_window.filter (fun ts => (0:ℚ) - 60 < ts)).length : Int) ≤
        (RateLimiter.init_ (some 2) (some 3) none none).messages_per_minute ∧
      (∀ t st', acquire_step (runOps (RateLimiter.init_ (some 2) (some 3) none none)
          [Op.tryAcq 0]) t = AcquireResult.admitted st' →
        ((clean_windows (runOps (RateLimiter.init_ (some 2) (some 3) none none)
            [Op.tryAcq 0]) t).second_window.length : Int) <
          (RateLimiter.init_ (some 2) (some 3) none none).messages_per_second ∧
        ((clean_windows (runOps (RateLimiter.init_ (some 2) (some 3) none none)
            [Op.tryAcq 0]) t).minute_window.length : Int) <
          (RateLimiter.init_ (some 2) (some 3) none none).messages_per_minute)) :=
  ⟨by decide, by decide,
    capacity_invariant (some 2) (some 3) none none [Op.tryAcq 0] 0 (by decide) (by decide)⟩

/-- C2 (code-bug demonstration). The constructor performs no validation:
passing a negative per-second limit constructs an instance with the
negative cap stored instead of failing fast with an
invalid-configuration error, and the first acquire iteration on that
instance faults (it reads `window[0]` of an empty deque, an
`IndexError`). -/
theorem init_accepts_invalid_config :
    (RateLimiter.init_ (some (-1)) (some 100) none none).messages_per_second = -1 ∧
    (RateLimiter.init_ (some (-1)) (some 100) none none).messages_per_minute = 100 ∧
    acquire_step (RateLimiter.init_ (some (-1)) (some 100) none none) 0 =
      AcquireResult.indexError (RateLimiter.init_ (some (-1)) (some 100) none none) :=
  ⟨rfl, rfl, rfl⟩

/-- C3. Whenever, after trimming both windows at the current time, the
second window is strictly below `per_second_limit` and the minute window
strictly below `per_minute_limit`, one acquire iteration admits
immediately (no sleep), appending the current monotonic timestamp to
both windows, so the admission timestamp is recorded in both windows on
return. -/
theorem acquire_below_caps_admits (st : RateLimiter) (now : ℚ)
    (hs : ((clean_windows st now).second_window.length : Int) < st.messages_per_second)
    (hm : ((clean_windows st now).minute_window.length : Int) < st.messages_per_minute) :
    acquire_step st now = AcquireResult.admitted
      { clean_windows st now with
        second_window := (clean_windows st now).second_window ++ [now]
        minute_window := (clean_windows st now).minute_window ++ [now] } ∧
    ∀ st', acquire_step st now = AcquireResult.admitted st' →
      now ∈ st'.second_window ∧ now ∈ st'.minute_window := by
  refine ⟨acquire_step_of_ok hs hm, ?_⟩
  intro st' h'
  obtain ⟨_, _, hst'⟩ := acquire_step_admitted_inv h'
  rw [hst']
  constructor <;> · rw [List.mem_append] ; exact Or.inr (List.mem_singleton_self now)

/-- Witness for C3: a fresh limiter with limits 1/1 admits at time 0 and
records the timestamp in both windows. -/
theorem acquire_below_caps_admits_witness :
    (((clean_windows (RateLimiter.init_ (some 1) (some 1) none none) 0).second_window.length :
        Int) < (RateLimiter.init_ (some 1) (some 1) none none).messages_per_second ∧
      ((clean_windows (RateLimiter.init_ (some 1) (some 1) none none) 0).minute_window.length :
        Int) < (RateLimiter.init_ (some 1) (some 1) none none).messages_per_minute) ∧
    (acquire_step (RateLimiter.init_ (some 1) (some 1) none none) 0 =
      AcquireResult.admitted
        { clean_windows (RateLimiter.init_ (some 1) (some 1) none none) 0 with
          second_window :=
            (clean_windows (RateLimiter.init_ (some 1) (some 1) none none) 0).second_window ++ [0]
          minute_window :=
            (clean_windows (RateLimiter.init_ (some 1) (some 1) none none) 0).minute_window ++ [0] } ∧
      ∀ st', acquire_step (RateLimiter.init_ (some 1) (some 1) none none) 0 =
          AcquireResult.admitted st' →
        (0:ℚ) ∈ st'.second_window ∧ (0:ℚ) ∈ st'.minute_window) :=
  ⟨⟨by decide, by decide⟩,
    acquire_below_caps_admits (RateLimiter.init_ (some 1) (some 1) none none) 0
      (by decide) (by decide)⟩

/-- C4. When at least one trimmed window is at capacity (and both
configured limits are at least 1 so the head reads cannot fault), the
acquire iteration sleeps for exactly the maximum of the applicable
per-window waits: `oldest second entry + 1 - now` when the second window
is full, `oldest minute entry + 60 - now` when the minute window is
full; the computed wait is never negative. -/
theorem acquire_wait_is_max_of_applicable (st : RateLimiter) (now : ℚ)
    (hs : 1 ≤ st.messages_per_second) (hm : 1 ≤ st.messages_per_minute)
    (hfull : ¬ (((clean_windows st now).second_window.length : Int) < st.messages_per_second ∧
                ((clean_windows st now).minute_window.length : Int) < st.messages_per_minute)) :
    ∃ w : ℚ,
      acquire_step st now = AcquireResult.sleep w (clean_windows st now) ∧ 0 ≤ w ∧
      (¬ ((clean_windows st now).second_window.length : Int) < st.messages_per_second →
        ((clean_windows st now).minute_window.length : Int) < st.messages_per_minute →
          w = (clean_windows st now).second_window.headI + 1 - now) ∧
      (((clean_windows st now).second_window.length : Int) < st.messages_per_second →
        ¬ ((clean_windows st now).minute_window.length : Int) < st.messages_per_minute →
          w = (clean_windows st now).minute_window.headI + 60 - now) ∧
      (¬ ((clean_windows st now).second_window.length : Int) < st.messages_per_second →
        ¬ ((clean_windows st now).minute_window.length : Int) < st.messages_per_minute →
          w = max ((clean_windows st now).second_window.headI + 1 - now)
                  ((clean_windows st now).minute_window.headI + 60 - now)) := by
  by_cases h1 : ((clean_windows st now).second_window.length : Int) < st.messages_per_second
  · by_cases h2 : ((clean_windows st now).minute_window.length : Int) < st.messages_per_minute
    · exact absurd ⟨h1, h2⟩ hfull
    · -- only the minute window is full
      obtain ⟨b, u, hb⟩ := exists_cons_of_cap_le hm h2
      have hbgt : now - 60 < b :=
        lt_of_dropWhile_le_eq_cons (c := now - 60) (l := st.minute_window) hb
      have hwpos : (0:ℚ) ≤ b + 60 - now := by linarith
      refine ⟨b + 60 - now, ?_, hwpos, ?_, ?_, ?_⟩
      · rw [acquire_step_of_not_ok hfull, decide_eq_true h1, decide_eq_false h2,
          acquire_wait_tt_ff hb, max_eq_right hwpos]
      · intro hc _; exact absurd h1 hc
      · intro _ _; rw [hb]; simp
      · intro hc _; exact absurd h1 hc
  · by_cases h2 : ((clean_windows st now).minute_window.length : Int) < st.messages_per_minute
    · -- only the second window is full
      obtain ⟨a, s, ha⟩ := exists_cons_of_cap_le hs h1
      have hagt : now - 1 < a :=
        lt_of_dropWhile_le_eq_cons (c := now - 1) (l := st.second_window) ha
      have hwpos : (0:ℚ) ≤ a + 1 - now := by linarith
      refine ⟨a + 1 - now, ?_, hwpos, ?_, ?_, ?_⟩
      · rw [acquire_step_of_not_ok hfull, decide_eq_false h1, decide_eq_true h2,
          acquire_wait_ff_tt ha, max_eq_right hwpos]
      · intro _ _; rw [ha]; simp
      · intro hc _; exact absurd hc h1
      · intro _ hc; exact absurd h2 hc
    · -- both windows are full
      obtain ⟨a, s, ha⟩ := exists_cons_of_cap_le hs h1
      obtain ⟨b, u, hb⟩ := exists_cons_of_cap_le hm h2
      have hagt : now - 1 < a :=
        lt_of_dropWhile_le_eq_cons (c := now - 1) (l := st.second_window) ha
      have hbgt : now - 60 < b :=
        lt_of_dropWhile_le_eq_cons (c := now - 60) (l := st.minute_window) hb
      have hapos : (0:ℚ) ≤ a + 1 - now := by linarith
      have hbpos : (0:ℚ) ≤ b + 60 - now := by linarith
      have hwpos : (0:ℚ) ≤ max (a + 1 - now) (b + 60 - now) :=
        le_trans hapos (le_max_left _ _)
      refine ⟨max (a + 1 - now) (b + 60 - now), ?_, hwpos, ?_, ?_, ?_⟩
      · rw [acquire_step_of_not_ok hfull, decide_eq_false h1, decide_eq_false h2,
          acquire_wait_ff_ff ha hb, max_eq_right hapos]
      · intro _ hc; exact absurd hc h2
      · intro hc _; exact absurd hc h1
      · intro _ _; rw [ha, hb]; simp

/-- Witness for C4: limits 1/5, one recorded grant at time 0, re-checked
at time 1/2 where the second window is full. -/
theorem acquire_wait_is_max_of_applicable_witness :
    (1 ≤ (RateLimiter.mk 1 5 [0] [0]).messages_per_second ∧
      1 ≤ (RateLimiter.mk 1 5 [0] [0]).messages_per_minute ∧
      ¬ (((clean_windows (RateLimiter.mk 1 5 [0] [0]) (1/2)).second_window.length : Int) <
            (RateLimiter.mk 1 5 [0] [0]).messages_per_second ∧
          ((clean_windows (RateLimiter.mk 1 5 [0] [0]) (1/2)).minute_window.length : Int) <
            (RateLimiter.mk 1 5 [0] [0]).messages_per_minute)) ∧
    (∃ w : ℚ,
      acquire_step (RateLimiter.mk 1 5 [0] [0]) (1/2) =
        AcquireResult.sleep w (clean_windows (RateLimiter.mk 1 5 [0] [0]) (1/2)) ∧ 0 ≤ w ∧
      (¬ ((clean_windows (RateLimiter.mk 1 5 [0] [0]) (1/2)).second_window.length : Int) <
          (RateLimiter.mk 1 5 [0] [0]).messages_per_second →
        ((clean_windows (RateLimiter.mk 1 5 [0] [0]) (1/2)).minute_window.length : Int) <
          (RateLimiter.mk 1 5 [0] [0]).messages_per_minute →
          w = (clean_windows (RateLimiter.mk 1 5 [0] [0]) (1/2)).second_window.headI + 1 - 1/2) ∧
      (((clean_windows (RateLimiter.mk 1 5 [0] [0]) (1/2)).second_window.length : Int) <
          (RateLimiter.mk 1 5 [0] [0]).messages_per_second →
        ¬ ((clean_windows (RateLimiter.mk 1 5 [0] [0]) (1/2)).minute_window.length : Int) <
          (RateLimiter.mk 1 5 [0] [0]).messages_per_minute →
          w = (clean_windows (RateLimiter.mk 1 5 [0] [0]) (1/2)).minute_window.headI + 60 - 1/2) ∧
      (¬ ((clean_windows (RateLimiter.mk 1 5 [0] [0]) (1/2)).second_window.length : Int) <
          (RateLimiter.mk 1 5 [0] [0]).messages_per_second →
        ¬ ((clean_windows (RateLimiter.mk 1 5 [0] [0]) (1/2)).minute_window.length : Int) <
          (RateLimiter.mk 1 5 [0] [0]).messages_per_minute →
          w = max ((clean_windows (RateLimiter.mk 1 5 [0] [0]) (1/2)).second_window.headI + 1 - 1/2)
              ((clean_windows (RateLimiter.mk 1 5 [0] [0]) (1/2)).minute_window.headI + 60 - 1/2))) :=
  ⟨⟨by decide, by decide, by
      norm_num [clean_windows, List.dropWhile]⟩,
    acquire_wait_is_max_of_applicable (RateLimiter.mk 1 5 [0] [0]) (1/2)
      (by decide) (by decide) (by norm_num [clean_windows, List.dropWhile])⟩

/-- C5. Window-subset invariant: after any chronologically ordered
sequence of operations on a fresh limiter, every timestamp present in
the second window is also present in the minute window (a grant is
appended to both windows in the same admission step, and the 1-second
trim is always at least as aggressive as the 60-second trim). -/
theorem window_subset_invariant (a b ea eb : Option Int) (t : ℚ) (ops : List Op)
    (hc : chronoFrom t ops = true) :
    ∀ ts ∈ (runOps (RateLimiter.init_ a b ea eb) ops).second_window,
      ts ∈ (runOps (RateLimiter.init_ a b ea eb) ops).minute_window := by
  obtain ⟨t', hinv⟩ := (StateInv.of_init a b ea eb t).runOps ops hc
  exact hinv.sub

/-- Witness for C5: two acquire iterations at times 0 and 1 on a fresh
limiter with limits 1/100. -/
theorem window_subset_invariant_witness :
    chronoFrom 0 [Op.tryAcq 0, Op.tryAcq 1] = true ∧
    ∀ ts ∈ (runOps (RateLimiter.init_ (some 1) (some 100) none none)
        [Op.tryAcq 0, Op.tryAcq 1]).second_window,
      ts ∈ (runOps (RateLimiter.init_ (some 1) (some 100) none none)
        [Op.tryAcq 0, Op.tryAcq 1]).minute_window :=
  ⟨by norm_num [chronoFrom, Op.time],
    window_subset_invariant (some 1) (some 100) none none 0 [Op.tryAcq 0, Op.tryAcq 1]
      (by norm_num [chronoFrom, Op.time])⟩

/-- C6 counterexample: at `now = 2` the second window's horizon is
`now - 1 = 1`, and an entry timestamped exactly 1 — at the horizon,
which the claim says is retained — is evicted by the trim (the code
evicts with `ts <= now - 1`, not `ts < now - 1`), so the count query
reports 0. -/
theorem clean_windows_evicts_entry_at_horizon :
    (2:ℚ) - 1 ≤ (1:ℚ) ∧
    (1:ℚ) ∈ (RateLimiter.mk 10 100 [1] [1]).second_window ∧
    (1:ℚ) ∉ (clean_windows (RateLimiter.mk 10 100 [1] [1]) 2).second_window ∧
    (current_second_count (RateLimiter.mk 10 100 [1] [1]) 2).1 = 0 := by
  refine ⟨by norm_num, by simp, ?_, ?_⟩
  · norm_num [clean_windows, List.dropWhile]
  · norm_num [current_second_count, clean_windows, List.dropWhile]

/-- C6 (amended). Trimming removes from each window exactly the head
entries at or older than that window's horizon (`now - 1` for the
second window, `now - 60` for the minute window): on windows sorted in
time order, every entry at or below the horizon is evicted, every entry
strictly newer is retained, and the count queries return the window
size after this trim. -/
theorem clean_windows_exact (st : RateLimiter) (now : ℚ)
    (hs : st.second_window.Sorted (fun x y => x ≤ y))
    (hm : st.minute_window.Sorted (fun x y => x ≤ y)) :
    (clean_windows st now).second_window =
      st.second_window.filter (fun ts => now - 1 < ts) ∧
    (clean_windows st now).minute_window =
      st.minute_window.filter (fun ts => now - 60 < ts) ∧
    (current_second_count st now).1 =
      (st.second_window.filter (fun ts => now - 1 < ts)).length ∧
    (current_minute_count st now).1 =
      (st.minute_window.filter (fun ts => now - 60 < ts)).length := by
  have h1 : (clean_windows st now).second_window =
      st.second_window.filter (fun ts => now - 1 < ts) :=
    dropWhile_le_eq_filter_of_sorted hs
  have h2 : (clean_windows st now).minute_window =
      st.minute_window.filter (fun ts => now - 60 < ts) :=
    dropWhile_le_eq_filter_of_sorted hm
  exact ⟨h1, h2, congrArg List.length h1, congrArg List.length h2⟩

/-- Witness for C6 (amended): sorted windows `[0, 1]` trimmed at
`now = 3/2` keep exactly the entries strictly above the horizon `1/2`. -/
theorem clean_windows_exact_witness :
    (List.Sorted (fun x y => x ≤ y) (RateLimiter.mk 2 100 [0, 1] [0, 1]).second_window ∧
     List.Sorted (fun x y => x ≤ y) (RateLimiter.mk 2 100 [0, 1] [0, 1]).minute_window) ∧
    ((clean_windows (RateLimiter.mk 2 100 [0, 1] [0, 1]) (3/2)).second_window =
      (RateLimiter.mk 2 100 [0, 1] [0, 1]).second_window.filter (fun ts => 3/2 - 1 < ts) ∧
    (clean_windows (RateLimiter.mk 2 100 [0, 1] [0, 1]) (3/2)).minute_window =
      (RateLimiter.mk 2 100 [0, 1] [0, 1]).minute_window.filter (fun ts => 3/2 - 60 < ts) ∧
    (current_second_count (RateLimiter.mk 2 100 [0, 1] [0, 1]) (3/2)).1 =
      ((RateLimiter.mk 2 100 [0, 1] [0, 1]).second_window.filter (fun ts => 3/2 - 1 < ts)).length ∧
    (current_minute_count (RateLimiter.mk 2 100 [0, 1] [0, 1]) (3/2)).1 =
      ((RateLimiter.mk 2 100 [0, 1] [0, 1]).minute_window.filter
        (fun ts => 3/2 - 60 < ts)).length) :=
  ⟨⟨by norm_num [List.sorted_cons], by norm_num [List.sorted_cons]⟩,
    clean_windows_exact (RateLimiter.mk 2 100 [0, 1] [0, 1]) (3/2)
      (by norm_num [List.sorted_cons]) (by norm_num [List.sorted_cons])⟩

/-- C7. Count queries are idempotent and consume no capacity: a query's
only state effect is the trim itself, repeating a query at the same
instant returns the same value and the same state, and the trimmed
windows are sublists of the originals (queries never add entries to
either window). -/
theorem count_queries_idempotent (st : RateLimiter) (now : ℚ) :
    current_second_count (current_second_count st now).2 now = current_second_count st now ∧
    current_minute_count (current_minute_count st now).2 now = current_minute_count st now ∧
    (current_second_count st now).2 = clean_windows st now ∧
    (current_minute_count st now).2 = clean_windows st now ∧
    clean_windows (clean_windows st now) now = clean_windows st now ∧
    List.Sublist (clean_windows st now).second_window st.second_window ∧
    List.Sublist (clean_windows st now).minute_window st.minute_window := by
  have hidem : clean_windows (clean_windows st now) now = clean_windows st now := by
    unfold clean_windows
    simp only [dropWhile_dropWhile_eq]
  refine ⟨?_, ?_, rfl, rfl, hidem, List.dropWhile_sublist _, List.dropWhile_sublist _⟩
  · show ((clean_windows (clean_windows st now) now).second_window.length,
        clean_windows (clean_windows st now) now) =
      ((clean_windows st now).second_window.length, clean_windows st now)
    rw [hidem]
  · show ((clean_windows (clean_windows st now) now).minute_window.length,
        clean_windows (clean_windows st now) now) =
      ((clean_windows st now).minute_window.length, clean_windows st now)
    rw [hidem]

/-- C8 (code-bug demonstration). The count queries do not take the
limiter's mutex: their bodies access the shared windows (including the
lazy eviction) with no lock acquisition, while `acquire` brackets its
window accesses with the lock — contradicting the requirement that
both use the same exclusive-access guard. -/
theorem count_queries_skip_lock :
    LockEvent.lockAcquire ∉ current_count_lockTrace ∧
    LockEvent.windowAccess ∈ current_count_lockTrace ∧
    LockEvent.lockAcquire ∈ acquire_lockTrace ∧
    LockEvent.windowAccess ∈ acquire_lockTrace := by
  refine ⟨?_, ?_, ?_, ?_⟩ <;> decide

/-- C9. Passing 0 as `messages_per_second` or `messages_per_minute` does
not configure a zero limit: `argument or env-default` treats 0 as falsy,
so a zero argument is silently replaced by the environment value or the
built-in default (10 per second, 100 per minute), exactly as if the
argument had been omitted. -/
theorem zero_limit_silently_replaced (a b ea eb : Option Int) :
    RateLimiter.init_ (some 0) b ea eb = RateLimiter.init_ none b ea eb ∧
    RateLimiter.init_ a (some 0) ea eb = RateLimiter.init_ a none ea eb ∧
    (RateLimiter.init_ (some 0) (some 0) ea eb).messages_per_second = getenvInt ea 10 ∧
    (RateLimiter.init_ (some 0) (some 0) ea eb).messages_per_minute = getenvInt eb 100 ∧
    (RateLimiter.init_ (some 0) (some 0) none none).messages_per_second = 10 ∧
    (RateLimiter.init_ (some 0) (some 0) none none).messages_per_minute = 100 :=
  ⟨rfl, rfl, rfl, rfl, rfl, rfl⟩

/-- C10. Head-access safety: on a limiter whose configured limits are
both at least 1, an acquire iteration never faults reading `window[0]`
in the wait computation — a window at or above its cap is necessarily
nonempty — so the `IndexError` branch is unreachable. -/
theorem acquire_head_access_safe (st : RateLimiter) (now : ℚ)
    (hs : 1 ≤ st.messages_per_second) (hm : 1 ≤ st.messages_per_minute) :
    ∀ stErr, acquire_step st now ≠ AcquireResult.indexError stErr := by
  intro stErr h
  by_cases hok : ((clean_windows st now).second_window.length : Int) < st.messages_per_second ∧
      ((clean_windows st now).minute_window.length : Int) < st.messages_per_minute
  · rw [acquire_step_of_ok hok.1 hok.2] at h
    exact AcquireResult.noConfusion h
  · rw [acquire_step_of_not_ok hok] at h
    have hws : decide (((clean_windows st now).second_window.length : Int) <
        st.messages_per_second) = false → (clean_windows st now).second_window ≠ [] := by
      intro hd
      rw [decide_eq_false_iff_not] at hd
      obtain ⟨x, u, hx⟩ := exists_cons_of_cap_le hs hd
      rw [hx]
      exact List.cons_ne_nil x u
    have hwm : decide (((clean_windows st now).minute_window.length : Int) <
        st.messages_per_minute) = false → (clean_windows st now).minute_window ≠ [] := by
      intro hd
      rw [decide_eq_false_iff_not] at hd
      obtain ⟨x, u, hx⟩ := exists_cons_of_cap_le hm hd
      rw [hx]
      exact List.cons_ne_nil x u
    obtain ⟨w, hw⟩ := acquire_wait_some hws hwm
    rw [hw] at h
    exact AcquireResult.noConfusion h

/-- Witness for C10: limits 1/1 with one grant recorded at time 0,
re-checked at time 1/2. -/
theorem acquire_head_access_safe_witness :
    (1 ≤ (RateLimiter.mk 1 1 [0] [0]).messages_per_second ∧
     1 ≤ (RateLimiter.mk 1 1 [0] [0]).messages_per_minute) ∧
    ∀ stErr, acquire_step (RateLimiter.mk 1 1 [0] [0]) (1/2) ≠
      AcquireResult.indexError stErr :=
  ⟨⟨by decide, by decide⟩,
    acquire_head_access_safe (RateLimiter.mk 1 1 [0] [0]) (1/2) (by decide) (by decide)⟩
